import Mathlib

/-!
Verification of the baton-opensearch connector synthesis engine.

This file gives a shallow embedding of the entitlement and grant
synthesis code of the connector (pkg/connector/roles.go,
pkg/connector/helpers.go, pkg/connector/role_mappings.go and the
revisions of roles.go kept alongside them) and proves the spec
claims about it.

The repository snapshot holds several revisions of roles.go and of
the createRoleEntitlements / createRoleGrants helpers.  Each revision
is embedded under its own name:
  - roleEntitlementsA / roleGrantsA: roles.go, first revision
    (Entitlements lines 57-118, Grants lines 121-273), the one that
    emits per-permission entitlements and builds expansion ids by
    string formatting.
  - createRoleEntitlementsBid / createRoleGrantsBid: the helpers kept
    in role_mappings.go (createRoleEntitlements lines 348-436,
    createRoleGrants lines 439-596), the revision that records a
    content-addressed id per emitted entitlement in a map and builds
    expansion sets only from that map.
  - grantsP2: the roleBuilder revision (src/unnamed/part_002) that
    wires the two helpers together with a per-pass cache.
  - roleEntitlementsD / roleGrantsD: roles.go, fourth revision
    (Entitlements lines 595-657, Grants lines 659-764), the one that
    tolerates a missing role mapping in Entitlements.
  - roleGrantsCurrent: the roles.go revision in src/unnamed/part_001
    (Grants lines 70-174), the one with wildcard handling and the
    configurable user match key.

External collaborators (the baton SDK constructors and the HTTP
client) are represented at their interfaces: client results are
passed in as Except values, and the SDK id constructors are modelled
from the spec (section 4.1) where noted.
-/

/-- An index-permission block of an OpenSearch role
(pkg/connector/client/models.go, indexPermission). -/
structure IndexPermission where
  indexPatterns : List String
  fls : List String
  maskedFields : List String
  allowedActions : List String
  deriving DecidableEq, Repr

/-- An OpenSearch security role (pkg/connector/client/models.go, Role).
Tenant permissions are carried by the Go struct but never read by the
synthesis code, so they are kept as an opaque count here. -/
structure Role where
  name : String
  reserved : Bool
  hidden : Bool
  static : Bool
  description : String
  clusterPermissions : List String
  indexPermissions : List IndexPermission
  deriving DecidableEq, Repr

/-- An OpenSearch role mapping (pkg/connector/client/models.go,
RoleMapping: name, backend_roles, users, hosts, and_backend_roles). -/
structure RoleMapping where
  name : String
  backendRoles : List String
  users : List String
  hosts : List String
  andBackendRoles : List String
  deriving DecidableEq, Repr

/-- Result of a client call: either the decoded value, a 404 NotFound
status, or any other transport or decoding failure.  The connector
distinguishes exactly these cases with status.Code(err) ==
codes.NotFound. -/
inductive ClientErr where
  | notFound
  | transport (msg : String)
  deriving DecidableEq, Repr

/-- A baton resource as used by the connector: the role resource is
built by batonResource.NewRoleResource(role.Name, roleResourceType,
role.Name, opts), so its type id is "role" and both its resource id
and display name are the role name. -/
structure Resource where
  resourceTypeId : String
  resourceId : String
  displayName : String
  deriving DecidableEq, Repr

/-- The resource the role builders construct for a role named n. -/
def roleResource (n : String) : Resource :=
  { resourceTypeId := "role", resourceId := n, displayName := n }

/-- A v2.ResourceId reference (resource type id plus resource id). -/
structure ResourceId where
  resourceType : String
  resource : String
  deriving DecidableEq, Repr

/-- Purpose of an entitlement: NewPermissionEntitlement marks it as a
permission, NewAssignmentEntitlement as an assignment.  Entitlement
values built literally by the Go code leave the purpose unset. -/
inductive Purpose where
  | permission
  | assignment
  deriving DecidableEq, Repr

/-- A v2.Entitlement as the synthesis code uses it: id, owning
resource, display name (the label passed to the constructor), purpose
and the resource type ids it is grantable to. -/
structure Entitlement where
  id : String
  resource : Resource
  displayName : String
  purpose : Option Purpose
  grantableTo : List String
  deriving DecidableEq, Repr

/-- Modelled from the spec: the baton SDK entitlement id constructor
(the Identifier Synthesizer of section 4.1) is not under src/.  Per
the spec it is a deterministic, content-addressed function of the
owning resource identity and the label; the repository code itself
reconstructs entitlement ids as DisplayName:label (roles.go lines
166 and 188, role_mappings.go lines 467 and 493), and for the role
resource the display name equals the resource id, so the id is
modelled as resourceId:label. -/
def synthesizeEntitlementId (owner : Resource) (label : String) : String :=
  owner.resourceId ++ ":" ++ label

/-- Modelled from the spec: bid.MakeBid (the content-addressed baton
id of section 4.1) is not under src/.  It is modelled as a
deterministic function of the entitlement content, with a shape
distinct from the entitlement id. -/
def makeBid (e : Entitlement) : String :=
  "bid:" ++ e.resource.resourceTypeId ++ ":" ++ e.resource.resourceId ++ ":" ++ e.displayName

/-- Modelled from the spec: entitlement.NewPermissionEntitlement of
the baton SDK, which fills in the synthesized id, the owning
resource, the label and the grantable-to list. -/
def newPermissionEntitlement (res : Resource) (label : String) (grantable : List String) : Entitlement :=
  { id := synthesizeEntitlementId res label
    resource := res
    displayName := label
    purpose := some Purpose.permission
    grantableTo := grantable }

/-- Modelled from the spec: entitlement.NewAssignmentEntitlement of
the baton SDK. -/
def newAssignmentEntitlement (res : Resource) (label : String) (grantable : List String) : Entitlement :=
  { id := synthesizeEntitlementId res label
    resource := res
    displayName := label
    purpose := some Purpose.assignment
    grantableTo := grantable }

/-- A v2.ExternalResourceMatch annotation: match an external
principal of the given trait by a key and value. -/
structure ExternalResourceMatch where
  resourceType : String
  key : String
  value : String
  deriving DecidableEq, Repr

/-- A v2.ExternalResourceMatchAll annotation: match every external
principal of the given trait. -/
structure ExternalResourceMatchAll where
  resourceType : String
  deriving DecidableEq, Repr

/-- A v2.ExternalResourceMatchID annotation: match an external
principal directly by id. -/
structure ExternalResourceMatchID where
  id : String
  deriving DecidableEq, Repr

/-- A v2.GrantExpandable annotation: the entitlement ids the grant
expands into, the shallow flag, and the resource type ids the
expansion is restricted to (empty means unrestricted). -/
structure GrantExpandable where
  entitlementIds : List String
  shallow : Bool
  resourceTypeIds : List String
  deriving DecidableEq, Repr

/-- The grant options the synthesis code attaches: each
grant.WithAnnotation call appends one of these. -/
inductive GrantMeta where
  | matchKV (m : ExternalResourceMatch)
  | matchAll (m : ExternalResourceMatchAll)
  | matchID (m : ExternalResourceMatchID)
  | expand (e : GrantExpandable)
  deriving DecidableEq, Repr

/-- A v2.Grant as the synthesis code builds it: owning resource, the
entitlement name passed to grant.NewGrant, the principal reference,
the attached annotations in order, and the Entitlement value when the
code overwrites grant.Entitlement directly afterwards. -/
structure Grant where
  owner : Resource
  entName : String
  principal : ResourceId
  meta : List GrantMeta
  entOverride : Option Entitlement
  deriving DecidableEq, Repr

/-- Modelled from the spec: grant.NewGrant of the baton SDK, applied
to the options the connector passes; the options only append
annotations, recorded here in order. -/
def newGrant (res : Resource) (entName : String) (p : ResourceId) (meta : List GrantMeta) : Grant :=
  { owner := res, entName := entName, principal := p, meta := meta, entOverride := none }

/-- Result of a builder operation, modelling the Go return tuple
(items, token, annotations, err): every error return in the embedded
code returns a nil item slice, and every success returns a nil
error. -/
structure BResult (α : Type) where
  items : List α
  err : Option ClientErr
  deriving DecidableEq, Repr

/-- Concatenation of the lists produced for each element, mirroring a
Go loop that appends several items per iteration. -/
def concatMap (f : α → List β) : List α → List β
  | [] => []
  | x :: xs => f x ++ concatMap f xs

/-- Loop over role.ClusterPermissions emitting one permission
entitlement labeled cluster_permission:perm per element
(helpers.go lines 17-25, roles.go lines 75-82 and 621-628,
role_mappings.go lines 354-371). -/
def clusterPermEnts (res : Resource) : List String → List Entitlement
  | [] => []
  | p :: ps =>
      newPermissionEntitlement res ("cluster_permission:" ++ p) ["user"] :: clusterPermEnts res ps

/-- Inner loop over one index-permission block, emitting one
permission entitlement labeled index_permission:action per allowed
action. -/
def indexActionEnts (res : Resource) : List String → List Entitlement
  | [] => []
  | a :: rest =>
      newPermissionEntitlement res ("index_permission:" ++ a) ["user"] :: indexActionEnts res rest

/-- Outer loop over role.IndexPermissions (helpers.go lines 28-38,
roles.go lines 85-94 and 631-640, role_mappings.go lines 374-393). -/
def indexPermEnts (res : Resource) : List IndexPermission → List Entitlement
  | [] => []
  | b :: bs => indexActionEnts res b.allowedActions ++ indexPermEnts res bs

/-- Loop over roleMapping.BackendRoles in roles.go first revision
(lines 97-104): one permission entitlement labeled
Group Assignment: backendRole. -/
def groupAssignEntsPerm (res : Resource) : List String → List Entitlement
  | [] => []
  | b :: bs =>
      newPermissionEntitlement res ("Group Assignment: " ++ b) ["user"] :: groupAssignEntsPerm res bs

/-- Loop over roleMapping.Users in roles.go first revision
(lines 107-114): one permission entitlement labeled
User Assignment: user. -/
def userAssignEntsPerm (res : Resource) : List String → List Entitlement
  | [] => []
  | u :: us =>
      newPermissionEntitlement res ("User Assignment: " ++ u) ["user"] :: userAssignEntsPerm res us

/-- Loop over roleMapping.BackendRoles in the helper revisions
(helpers.go lines 41-49, role_mappings.go lines 396-413): one
assignment entitlement labeled Group Assignment: backendRole. -/
def groupAssignEntsAsg (res : Resource) : List String → List Entitlement
  | [] => []
  | b :: bs =>
      newAssignmentEntitlement res ("Group Assignment: " ++ b) ["user"] :: groupAssignEntsAsg res bs

/-- Loop over roleMapping.Users in the helper revisions
(helpers.go lines 52-60, role_mappings.go lines 416-433): one
assignment entitlement labeled User Assignment: user. -/
def userAssignEntsAsg (res : Resource) : List String → List Entitlement
  | [] => []
  | u :: us =>
      newAssignmentEntitlement res ("User Assignment: " ++ u) ["user"] :: userAssignEntsAsg res us

/-- createRoleEntitlements of role_mappings.go (lines 348-436): emits
the four entitlement families in order and records, for each emitted
entitlement, its baton id under its entitlement id
(entitlementBidMap[ent.Id] = bidEnt).  The Go map is represented as
the association list of its insertions in loop order; duplicate keys
can only arise from identical entitlements, which insert identical
values, so lookup agrees with the Go map.  The Go error branches fire
only when bid.MakeBid fails, which the modelled makeBid never does. -/
def createRoleEntitlementsBid (res : Resource) (role : Role) (rm : RoleMapping) :
    List Entitlement × List (String × String) :=
  let ents :=
    clusterPermEnts res role.clusterPermissions
      ++ indexPermEnts res role.indexPermissions
      ++ groupAssignEntsAsg res rm.backendRoles
      ++ userAssignEntsAsg res rm.users
  (ents, ents.map (fun e => (e.id, makeBid e)))

/-- Expansion-id computation of createRoleGrants in role_mappings.go
(lines 463-481 and 539-557): for each cluster permission and each
(index block, action) pair, look the key
DisplayName:cluster_permission:perm resp.
DisplayName:index_permission:action up in the entitlement bid map and
keep the bid only when the key exists. -/
def expandIdsBid (res : Resource) (role : Role) (m : List (String × String)) : List String :=
  role.clusterPermissions.filterMap
      (fun p => m.lookup (res.displayName ++ ":cluster_permission:" ++ p))
    ++ concatMap
        (fun b => b.allowedActions.filterMap
          (fun a => m.lookup (res.displayName ++ ":index_permission:" ++ a)))
        role.indexPermissions

/-- Body of the backend-role loop of createRoleGrants in
role_mappings.go (lines 444-517). -/
def groupGrantBid (res : Resource) (role : Role) (m : List (String × String)) (b : String) : Grant :=
  let baseMeta : List GrantMeta := [GrantMeta.matchKV { resourceType := "group", key := "name", value := b }]
  let withMeta :=
    if 0 < role.clusterPermissions.length ∨ 0 < role.indexPermissions.length then
      baseMeta ++ [GrantMeta.expand { entitlementIds := expandIdsBid res role m, shallow := true, resourceTypeIds := ["user"] }]
    else baseMeta
  let gae : Entitlement :=
    { id := res.displayName ++ ":Group Assignment: " ++ b
      resource := res
      displayName := "Group Assignment: " ++ b
      purpose := none
      grantableTo := [] }
  { newGrant res (makeBid gae) { resourceType := "user", resource := "group_member:" ++ b } withMeta
    with entOverride := some gae }

/-- Body of the user loop of createRoleGrants in role_mappings.go
(lines 520-593). -/
def userGrantBid (res : Resource) (role : Role) (m : List (String × String)) (u : String) : Grant :=
  let baseMeta : List GrantMeta := [GrantMeta.matchKV { resourceType := "user", key := "username", value := u }]
  let withMeta :=
    if 0 < role.clusterPermissions.length ∨ 0 < role.indexPermissions.length then
      baseMeta ++ [GrantMeta.expand { entitlementIds := expandIdsBid res role m, shallow := true, resourceTypeIds := ["user"] }]
    else baseMeta
  let uae : Entitlement :=
    { id := res.displayName ++ ":User Assignment: " ++ u
      resource := res
      displayName := "User Assignment: " ++ u
      purpose := none
      grantableTo := [] }
  { newGrant res (makeBid uae) { resourceType := "user", resource := u } withMeta
    with entOverride := some uae }

/-- createRoleGrants of role_mappings.go (lines 439-596): one grant
per backend role followed by one grant per user. -/
def createRoleGrantsBid (res : Resource) (role : Role) (rm : RoleMapping) (m : List (String × String)) :
    List Grant :=
  rm.backendRoles.map (groupGrantBid res role m) ++ rm.users.map (userGrantBid res role m)

/-- Grants of the part_002 roleBuilder revision (lines 89-125): fetch
the mapping, fetch the role, recompute the entitlement bid map on a
cache miss (the cached value is the same map, since
createRoleEntitlements is pure), then call createRoleGrants. -/
def grantsP2 (res : Resource) (mappingRes : Except ClientErr RoleMapping)
    (roleRes : Except ClientErr Role) : BResult Grant :=
  match mappingRes with
  | Except.error e => { items := [], err := some e }
  | Except.ok rm =>
    match roleRes with
    | Except.error e => { items := [], err := some e }
    | Except.ok role =>
      let m := (createRoleEntitlementsBid res role rm).2
      { items := createRoleGrantsBid res role rm m, err := none }

/-- Entitlements of roles.go first revision (lines 57-118): mapping
fetch, then role fetch, each error propagated with nil items; on
success the four entitlement families in order, all built with
NewPermissionEntitlement. -/
def roleEntitlementsA (res : Resource) (mappingRes : Except ClientErr RoleMapping)
    (roleRes : Except ClientErr Role) : BResult Entitlement :=
  match mappingRes with
  | Except.error e => { items := [], err := some e }
  | Except.ok rm =>
    match roleRes with
    | Except.error e => { items := [], err := some e }
    | Except.ok role =>
      { items :=
          clusterPermEnts res role.clusterPermissions
            ++ indexPermEnts res role.indexPermissions
            ++ groupAssignEntsPerm res rm.backendRoles
            ++ userAssignEntsPerm res rm.users
        err := none }

/-- Expansion-id computation of roles.go first revision (lines
163-176 and 227-241): ids rebuilt by string formatting from the
resource display name, one per cluster permission and one per
(index block, action) pair. -/
def expandIdsA (res : Resource) (role : Role) : List String :=
  role.clusterPermissions.map (fun p => res.displayName ++ ":cluster_permission:" ++ p)
    ++ concatMap
        (fun b => b.allowedActions.map (fun a => res.displayName ++ ":index_permission:" ++ a))
        role.indexPermissions

/-- Body of the backend-role loop of Grants in roles.go first
revision (lines 140-204). -/
def groupGrantA (res : Resource) (role : Role) (b : String) : Grant :=
  let baseMeta : List GrantMeta := [GrantMeta.matchKV { resourceType := "group", key := "name", value := b }]
  let withMeta :=
    if 0 < role.clusterPermissions.length ∨ 0 < role.indexPermissions.length then
      baseMeta ++ [GrantMeta.expand { entitlementIds := expandIdsA res role, shallow := true, resourceTypeIds := ["user"] }]
    else baseMeta
  let gae : Entitlement :=
    { id := res.displayName ++ ":Group Assignment: " ++ b
      resource := res
      displayName := "Group Assignment: " ++ b
      purpose := none
      grantableTo := [] }
  { newGrant res (res.displayName ++ ":group:" ++ b) { resourceType := "user", resource := "group_member:" ++ b } withMeta
    with entOverride := some gae }

/-- Body of the user loop of Grants in roles.go first revision (lines
207-269); the match key is the hardcoded string "username". -/
def userGrantA (res : Resource) (role : Role) (u : String) : Grant :=
  let baseMeta : List GrantMeta := [GrantMeta.matchKV { resourceType := "user", key := "username", value := u }]
  let withMeta :=
    if 0 < role.clusterPermissions.length ∨ 0 < role.indexPermissions.length then
      baseMeta ++ [GrantMeta.expand { entitlementIds := expandIdsA res role, shallow := true, resourceTypeIds := ["user"] }]
    else baseMeta
  let uae : Entitlement :=
    { id := res.displayName ++ ":User Assignment: " ++ u
      resource := res
      displayName := "User Assignment: " ++ u
      purpose := none
      grantableTo := [] }
  { newGrant res (res.displayName ++ ":user:" ++ u) { resourceType := "user", resource := u } withMeta
    with entOverride := some uae }

/-- Grants of roles.go first revision (lines 121-273): mapping fetch,
then role fetch, each error propagated with nil items; on success one
grant per backend role followed by one grant per user. -/
def roleGrantsA (res : Resource) (mappingRes : Except ClientErr RoleMapping)
    (roleRes : Except ClientErr Role) : BResult Grant :=
  match mappingRes with
  | Except.error e => { items := [], err := some e }
  | Except.ok rm =>
    match roleRes with
    | Except.error e => { items := [], err := some e }
    | Except.ok role =>
      { items := rm.backendRoles.map (groupGrantA res role) ++ rm.users.map (userGrantA res role)
        err := none }

/-- Loop over roleMapping.BackendRoles of Entitlements in roles.go
fourth revision (lines 646-653): assignment entitlements labeled
group_assignment:backendRole. -/
def groupAssignEntsD (res : Resource) : List String → List Entitlement
  | [] => []
  | b :: bs =>
      newAssignmentEntitlement res ("group_assignment:" ++ b) ["user"] :: groupAssignEntsD res bs

/-- Entitlements of roles.go fourth revision (lines 595-657): role
fetch first; a NotFound from the mapping fetch is tolerated and
leaves the mapping nil, any other mapping error is propagated; the
permission entitlements are always emitted for the role, and the
group-assignment entitlements only when a mapping is present.  This
revision emits no user-assignment entitlements. -/
def roleEntitlementsD (res : Resource) (roleRes : Except ClientErr Role)
    (mappingRes : Except ClientErr RoleMapping) : BResult Entitlement :=
  match roleRes with
  | Except.error e => { items := [], err := some e }
  | Except.ok role =>
    match mappingRes with
    | Except.error ClientErr.notFound =>
      { items := clusterPermEnts res role.clusterPermissions ++ indexPermEnts res role.indexPermissions
        err := none }
    | Except.error e => { items := [], err := some e }
    | Except.ok rm =>
      { items :=
          clusterPermEnts res role.clusterPermissions
            ++ indexPermEnts res role.indexPermissions
            ++ groupAssignEntsD res rm.backendRoles
        err := none }

/-- Body of the backend-role loop of Grants in roles.go fourth
revision (lines 688-730): the expandable annotation is attached
unconditionally with the bid of the group-assignment entitlement. -/
def groupGrantD (res : Resource) (b : String) : Grant :=
  let gae := newAssignmentEntitlement res ("group_assignment:" ++ b) ["user"]
  { newGrant res ("group_assignment:" ++ b)
        { resourceType := "user", resource := "group_member:" ++ b }
        [GrantMeta.matchKV { resourceType := "group", key := "name", value := b },
         GrantMeta.expand { entitlementIds := [makeBid gae], shallow := true, resourceTypeIds := ["user"] }]
    with entOverride := some gae }

/-- Body of the user loop of Grants in roles.go fourth revision
(lines 733-758): hardcoded "username" match, no expandable
annotation. -/
def userGrantD (res : Resource) (u : String) : Grant :=
  newGrant res ("user_assignment:" ++ u) { resourceType := "user", resource := u }
    [GrantMeta.matchKV { resourceType := "user", key := "username", value := u }]

/-- Grants of roles.go fourth revision (lines 659-764): a NotFound
from the mapping fetch returns nil grants and nil error; any other
mapping error is propagated; then the role fetch, then one grant per
backend role followed by one grant per user. -/
def roleGrantsD (res : Resource) (mappingRes : Except ClientErr RoleMapping)
    (roleRes : Except ClientErr Role) : BResult Grant :=
  match mappingRes with
  | Except.error ClientErr.notFound => { items := [], err := none }
  | Except.error e => { items := [], err := some e }
  | Except.ok rm =>
    match roleRes with
    | Except.error e => { items := [], err := some e }
    | Except.ok _role =>
      { items := rm.backendRoles.map (groupGrantD res) ++ rm.users.map (userGrantD res)
        err := none }

/-- Body of the backend-role loop of Grants in the part_001 revision
(lines 87-127): group match by name, plus an expandable annotation
over the bid of the role assignment entitlement, with no resource
type restriction. -/
def groupGrantCurrent (res : Resource) (b : String) : Grant :=
  let assignedEnt := newAssignmentEntitlement res "assigned" ["user", "group"]
  newGrant res "assigned" { resourceType := "group", resource := b }
    [GrantMeta.matchKV { resourceType := "group", key := "name", value := b },
     GrantMeta.expand { entitlementIds := [makeBid assignedEnt], shallow := true, resourceTypeIds := [] }]

/-- Body of the user loop of Grants in the part_001 revision (lines
130-171): when the identifier is the wildcard an
ExternalResourceMatchAll annotation is appended, and then in every
case the generic match annotation is appended as well, an
ExternalResourceMatchID when the configured match key is "id" and a
key/value ExternalResourceMatch otherwise. -/
def userGrantCurrent (res : Resource) (matchKey : String) (u : String) : Grant :=
  let wildcardMeta : List GrantMeta :=
    if u = "*" then [GrantMeta.matchAll { resourceType := "user" }] else []
  let keyMeta : List GrantMeta :=
    if matchKey = "id" then [GrantMeta.matchID { id := u }]
    else [GrantMeta.matchKV { resourceType := "user", key := matchKey, value := u }]
  newGrant res "assigned" { resourceType := "user", resource := u } (wildcardMeta ++ keyMeta)

/-- Grants of the part_001 revision (lines 70-174): a NotFound from
the mapping fetch returns an empty grant slice and nil error; any
other mapping error is propagated; on success one grant per backend
role followed by one grant per user.  The match key comes from the
connector-wide client configuration (client.GetUserMatchKey). -/
def roleGrantsCurrent (res : Resource) (mappingRes : Except ClientErr RoleMapping)
    (matchKey : String) : BResult Grant :=
  match mappingRes with
  | Except.error ClientErr.notFound => { items := [], err := none }
  | Except.error e => { items := [], err := some e }
  | Except.ok rm =>
    { items := rm.backendRoles.map (groupGrantCurrent res) ++ rm.users.map (userGrantCurrent res matchKey)
      err := none }

/-- All entitlement ids referenced by expandable annotations of a
grant. -/
def expandIdsOf (g : Grant) : List String :=
  concatMap
    (fun m => match m with
      | GrantMeta.expand e => e.entitlementIds
      | _ => [])
    g.meta

/-- Whether an annotation is a literal key/value external match. -/
def isKV : GrantMeta → Bool
  | GrantMeta.matchKV _ => true
  | _ => false

/-- The (key, value) pair an external-match annotation resolves a
principal by: a key/value match carries its own key and value, an
id match resolves by the key "id", and a match-all or expandable
annotation resolves by none. -/
def keyValOf : GrantMeta → Option (String × String)
  | GrantMeta.matchKV m => some (m.key, m.value)
  | GrantMeta.matchID m => some ("id", m.id)
  | GrantMeta.matchAll _ => none
  | GrantMeta.expand _ => none

/-- Concrete role used to instantiate universally quantified
theorems: one cluster permission, no index permissions. -/
def sampleRole : Role :=
  { name := "analyst", reserved := false, hidden := false, static := false
    description := "", clusterPermissions := ["cluster:monitor/health"], indexPermissions := [] }

/-- Concrete role mapping with one backend role and one user. -/
def sampleMapping : RoleMapping :=
  { name := "analyst", backendRoles := ["okta-analysts"], users := ["alice"]
    hosts := [], andBackendRoles := [] }

/-- The role resource for the sample role. -/
def sampleRes : Resource := roleResource "analyst"

/-- The grant the bid-map revision produces for the sample backend
role, using the bid map recorded by createRoleEntitlements. -/
def sampleGroupGrant : Grant :=
  groupGrantBid sampleRes sampleRole (createRoleEntitlementsBid sampleRes sampleRole sampleMapping).2 "okta-analysts"

/-- The bid the modelled identifier synthesizer assigns to the
cluster-permission entitlement of the sample role. -/
def sampleBidId : String := "bid:role:analyst:cluster_permission:cluster:monitor/health"

theorem mem_concatMap {α β : Type} {f : α → List β} {l : List α} {b : β} :
    b ∈ concatMap f l ↔ ∃ a, a ∈ l ∧ b ∈ f a := by
  induction l with
  | nil => simp [concatMap]
  | cons x xs ih =>
    simp only [concatMap, List.mem_append, ih, List.mem_cons]
    constructor
    · rintro (h | ⟨a, ha, hb⟩)
      · exact ⟨x, Or.inl rfl, h⟩
      · exact ⟨a, Or.inr ha, hb⟩
    · rintro ⟨a, (rfl | ha), hb⟩
      · exact Or.inl hb
      · exact Or.inr ⟨a, ha, hb⟩

theorem clusterPermEnts_map_id (res : Resource) (ps : List String) :
    (clusterPermEnts res ps).map (fun e => e.id)
      = ps.map (fun p => synthesizeEntitlementId res ("cluster_permission:" ++ p)) := by
  induction ps with
  | nil => rfl
  | cons p ps ih => simp [clusterPermEnts, newPermissionEntitlement, ih]

theorem clusterPermEnts_map_name (res : Resource) (ps : List String) :
    (clusterPermEnts res ps).map (fun e => e.displayName)
      = ps.map (fun p => "cluster_permission:" ++ p) := by
  induction ps with
  | nil => rfl
  | cons p ps ih => simp [clusterPermEnts, newPermissionEntitlement, ih]

theorem clusterPermEnts_all_perm (res : Resource) (ps : List String) :
    (clusterPermEnts res ps).all (fun e => e.purpose == some Purpose.permission) = true := by
  induction ps with
  | nil => rfl
  | cons p ps ih => simp [clusterPermEnts, newPermissionEntitlement, ih]

theorem indexActionEnts_map_id (res : Resource) (l : List String) :
    (indexActionEnts res l).map (fun e => e.id)
      = l.map (fun a => synthesizeEntitlementId res ("index_permission:" ++ a)) := by
  induction l with
  | nil => rfl
  | cons a rest ih => simp [indexActionEnts, newPermissionEntitlement, ih]

theorem indexActionEnts_map_name (res : Resource) (l : List String) :
    (indexActionEnts res l).map (fun e => e.displayName)
      = l.map (fun a => "index_permission:" ++ a) := by
  induction l with
  | nil => rfl
  | cons a rest ih => simp [indexActionEnts, newPermissionEntitlement, ih]

theorem indexActionEnts_all_perm (res : Resource) (l : List String) :
    (indexActionEnts res l).all (fun e => e.purpose == some Purpose.permission) = true := by
  induction l with
  | nil => rfl
  | cons a rest ih => simp [indexActionEnts, newPermissionEntitlement, ih]

theorem indexPermEnts_map_id (res : Resource) (bs : List IndexPermission) :
    (indexPermEnts res bs).map (fun e => e.id)
      = concatMap (fun b => b.allowedActions.map (fun a => synthesizeEntitlementId res ("index_permission:" ++ a))) bs := by
  induction bs with
  | nil => rfl
  | cons b bs ih => simp [indexPermEnts, concatMap, indexActionEnts_map_id, ih]

theorem indexPermEnts_map_name (res : Resource) (bs : List IndexPermission) :
    (indexPermEnts res bs).map (fun e => e.displayName)
      = concatMap (fun b => b.allowedActions.map (fun a => "index_permission:" ++ a)) bs := by
  induction bs with
  | nil => rfl
  | cons b bs ih => simp [indexPermEnts, concatMap, indexActionEnts_map_name, ih]

theorem indexPermEnts_all_perm (res : Resource) (bs : List IndexPermission) :
    (indexPermEnts res bs).all (fun e => e.purpose == some Purpose.permission) = true := by
  induction bs with
  | nil => rfl
  | cons b bs ih => simp [indexPermEnts, List.all_append, indexActionEnts_all_perm, ih]

theorem groupAssignEntsAsg_map_id (res : Resource) (l : List String) :
    (groupAssignEntsAsg res l).map (fun e => e.id)
      = l.map (fun b => synthesizeEntitlementId res ("Group Assignment: " ++ b)) := by
  induction l with
  | nil => rfl
  | cons b bs ih => simp [groupAssignEntsAsg, newAssignmentEntitlement, ih]

theorem userAssignEntsAsg_map_id (res : Resource) (l : List String) :
    (userAssignEntsAsg res l).map (fun e => e.id)
      = l.map (fun u => synthesizeEntitlementId res ("User Assignment: " ++ u)) := by
  induction l with
  | nil => rfl
  | cons u us ih => simp [userAssignEntsAsg, newAssignmentEntitlement, ih]

theorem groupAssignEntsPerm_map_name (res : Resource) (l : List String) :
    (groupAssignEntsPerm res l).map (fun e => e.displayName)
      = l.map (fun b => "Group Assignment: " ++ b) := by
  induction l with
  | nil => rfl
  | cons b bs ih => simp [groupAssignEntsPerm, newPermissionEntitlement, ih]

theorem userAssignEntsPerm_map_name (res : Resource) (l : List String) :
    (userAssignEntsPerm res l).map (fun e => e.displayName)
      = l.map (fun u => "User Assignment: " ++ u) := by
  induction l with
  | nil => rfl
  | cons u us ih => simp [userAssignEntsPerm, newPermissionEntitlement, ih]

theorem lookup_bid_mem {ents : List Entitlement} {k v : String}
    (h : (ents.map (fun e => (e.id, makeBid e))).lookup k = some v) :
    ∃ e, e ∈ ents ∧ makeBid e = v := by
  induction ents with
  | nil => simp [List.lookup] at h
  | cons e rest ih =>
    rw [List.map_cons, List.lookup] at h
    cases hk : (k == e.id) with
    | true =>
      rw [hk] at h
      exact ⟨e, List.mem_cons_self e rest, Option.some.inj h⟩
    | false =>
      rw [hk] at h
      obtain ⟨e2, he2, hb⟩ := ih h
      exact ⟨e2, List.mem_cons_of_mem e he2, hb⟩

theorem mem_expandIdsBid_makeBid {res : Resource} {role : Role} {ents : List Entitlement} {i : String}
    (h : i ∈ expandIdsBid res role (ents.map (fun e => (e.id, makeBid e)))) :
    ∃ e, e ∈ ents ∧ makeBid e = i := by
  rw [expandIdsBid, List.mem_append] at h
  rcases h with h | h
  · obtain ⟨p, _, hp⟩ := List.mem_filterMap.mp h
    exact lookup_bid_mem hp
  · obtain ⟨b, _, hb⟩ := mem_concatMap.mp h
    obtain ⟨a, _, ha⟩ := List.mem_filterMap.mp hb
    exact lookup_bid_mem ha

theorem expandIdsOf_groupGrantBid (res : Resource) (role : Role) (m : List (String × String)) (b : String) :
    expandIdsOf (groupGrantBid res role m b)
      = if 0 < role.clusterPermissions.length ∨ 0 < role.indexPermissions.length
        then expandIdsBid res role m else [] := by
  by_cases h : 0 < role.clusterPermissions.length ∨ 0 < role.indexPermissions.length
  · simp [groupGrantBid, expandIdsOf, newGrant, concatMap, h]
  · simp [groupGrantBid, expandIdsOf, newGrant, concatMap, h]

theorem expandIdsOf_userGrantBid (res : Resource) (role : Role) (m : List (String × String)) (u : String) :
    expandIdsOf (userGrantBid res role m u)
      = if 0 < role.clusterPermissions.length ∨ 0 < role.indexPermissions.length
        then expandIdsBid res role m else [] := by
  by_cases h : 0 < role.clusterPermissions.length ∨ 0 < role.indexPermissions.length
  · simp [userGrantBid, expandIdsOf, newGrant, concatMap, h]
  · simp [userGrantBid, expandIdsOf, newGrant, concatMap, h]

/-- Claim C1: for every fixed Role and RoleMapping input, running
entitlement synthesis twice yields exactly the same list of
entitlements, with identical identifiers in identical order; the
identifier list is a pure function of the inputs, given explicitly as
the four label families in input order
(role_mappings.go createRoleEntitlements, lines 348-436). -/
theorem C1_entitlement_synthesis_deterministic (res : Resource) (role : Role) (rm : RoleMapping) :
    createRoleEntitlementsBid res role rm = createRoleEntitlementsBid res role rm
    ∧ (createRoleEntitlementsBid res role rm).1.map (fun e => e.id)
      = role.clusterPermissions.map (fun p => synthesizeEntitlementId res ("cluster_permission:" ++ p))
        ++ concatMap (fun b => b.allowedActions.map (fun a => synthesizeEntitlementId res ("index_permission:" ++ a))) role.indexPermissions
        ++ rm.backendRoles.map (fun b => synthesizeEntitlementId res ("Group Assignment: " ++ b))
        ++ rm.users.map (fun u => synthesizeEntitlementId res ("User Assignment: " ++ u)) := by
  refine ⟨rfl, ?_⟩
  simp [createRoleEntitlementsBid, List.map_append, clusterPermEnts_map_id, indexPermEnts_map_id,
    groupAssignEntsAsg_map_id, userAssignEntsAsg_map_id]

/-- Claim C2: when GetRoleMapping reports NotFound for a role, the
Grants operation returns an empty grant collection and no error
(part_001 revision of roles.go, Grants lines 73-79). -/
theorem C2_notfound_mapping_yields_empty_grants (res : Resource) (matchKey : String) :
    roleGrantsCurrent res (Except.error ClientErr.notFound) matchKey = { items := [], err := none } := rfl

/-- Claim C3: every entitlement identifier listed in the expandable
annotation of a grant produced by createRoleGrants, run against the
bid map recorded by createRoleEntitlements for the same role in the
same pass, is the identifier of some entitlement emitted by that
createRoleEntitlements call (role_mappings.go lines 439-596 with
lines 348-436). -/
theorem C3_expansion_ids_reference_emitted_entitlements
    (res : Resource) (role : Role) (rm : RoleMapping) (g : Grant) (i : String)
    (hg : g ∈ createRoleGrantsBid res role rm (createRoleEntitlementsBid res role rm).2)
    (hi : i ∈ expandIdsOf g) :
    ∃ e, e ∈ (createRoleEntitlementsBid res role rm).1 ∧ makeBid e = i := by
  have key : (createRoleEntitlementsBid res role rm).2
      = (createRoleEntitlementsBid res role rm).1.map (fun e => (e.id, makeBid e)) := rfl
  rw [createRoleGrantsBid, List.mem_append] at hg
  rcases hg with hg | hg
  · obtain ⟨b, -, rfl⟩ := List.mem_map.mp hg
    rw [expandIdsOf_groupGrantBid] at hi
    by_cases h : 0 < role.clusterPermissions.length ∨ 0 < role.indexPermissions.length
    · rw [if_pos h, key] at hi
      exact mem_expandIdsBid_makeBid hi
    · rw [if_neg h] at hi
      exact absurd hi (List.not_mem_nil i)
  · obtain ⟨u, -, rfl⟩ := List.mem_map.mp hg
    rw [expandIdsOf_userGrantBid] at hi
    by_cases h : 0 < role.clusterPermissions.length ∨ 0 < role.indexPermissions.length
    · rw [if_pos h, key] at hi
      exact mem_expandIdsBid_makeBid hi
    · rw [if_neg h] at hi
      exact absurd hi (List.not_mem_nil i)

/-- Witness for claim C3 at the sample inputs: the backend-role grant
of the sample pass is among the produced grants, its expansion set
contains the bid of the cluster-permission entitlement, and that bid
is the identifier of an emitted entitlement. -/
theorem C3_witness :
    sampleGroupGrant ∈ createRoleGrantsBid sampleRes sampleRole sampleMapping
        (createRoleEntitlementsBid sampleRes sampleRole sampleMapping).2
    ∧ sampleBidId ∈ expandIdsOf sampleGroupGrant
    ∧ ∃ e, e ∈ (createRoleEntitlementsBid sampleRes sampleRole sampleMapping).1 ∧ makeBid e = sampleBidId :=
  ⟨by decide, by decide,
    C3_expansion_ids_reference_emitted_entitlements sampleRes sampleRole sampleMapping
      sampleGroupGrant sampleBidId (by decide) (by decide)⟩

/-- Claim C4: for a role whose mapping fetch reports NotFound, the
Entitlements operation of the NotFound-tolerant revision still emits
one entitlement per cluster permission and per (index block, action)
pair, emits only permission-purpose entitlements (so zero
assignment-channel entitlements), reports no error, and the Grants
operation returns zero grants and no error (roles.go fourth revision,
lines 595-657 and 659-764). -/
theorem C4_missing_mapping_keeps_permissions (res : Resource) (role : Role) :
    (roleEntitlementsD res (Except.ok role) (Except.error ClientErr.notFound)).err = none
    ∧ (roleEntitlementsD res (Except.ok role) (Except.error ClientErr.notFound)).items.map (fun e => e.displayName)
        = role.clusterPermissions.map (fun p => "cluster_permission:" ++ p)
          ++ concatMap (fun b => b.allowedActions.map (fun a => "index_permission:" ++ a)) role.indexPermissions
    ∧ (roleEntitlementsD res (Except.ok role) (Except.error ClientErr.notFound)).items.all
        (fun e => e.purpose == some Purpose.permission) = true
    ∧ roleGrantsD res (Except.error ClientErr.notFound) (Except.ok role) = { items := [], err := none } := by
  refine ⟨rfl, ?_, ?_, rfl⟩
  · simp [roleEntitlementsD, List.map_append, clusterPermEnts_map_name, indexPermEnts_map_name]
  · simp [roleEntitlementsD, List.all_append, clusterPermEnts_all_perm, indexPermEnts_all_perm]

/-- Claim C7: with role and mapping present, entitlement synthesis
emits exactly one entitlement labeled cluster_permission:perm per
cluster-permission string in input order, and one entitlement labeled
index_permission:action per (index block, allowed action) pair, with
no deduplication across blocks, followed by the assignment labels
(roles.go first revision, Entitlements lines 57-118; the
createRoleEntitlements helpers emit the same label list). -/
theorem C7_one_entitlement_per_permission (res : Resource) (rm : RoleMapping) (role : Role) :
    (roleEntitlementsA res (Except.ok rm) (Except.ok role)).err = none
    ∧ (roleEntitlementsA res (Except.ok rm) (Except.ok role)).items.map (fun e => e.displayName)
        = role.clusterPermissions.map (fun p => "cluster_permission:" ++ p)
          ++ concatMap (fun b => b.allowedActions.map (fun a => "index_permission:" ++ a)) role.indexPermissions
          ++ rm.backendRoles.map (fun b => "Group Assignment: " ++ b)
          ++ rm.users.map (fun u => "User Assignment: " ++ u) := by
  refine ⟨rfl, ?_⟩
  simp [roleEntitlementsA, List.map_append, clusterPermEnts_map_name, indexPermEnts_map_name,
    groupAssignEntsPerm_map_name, userAssignEntsPerm_map_name]

/-- Claim C9: whenever the Entitlements or Grants operation returns a
non-nil error, its item collection is empty; shown for the first
revision of roles.go and for the part_002 roleBuilder (every error
return site in those operations returns a nil slice). -/
theorem C9_error_implies_no_items (res : Resource) (mr : Except ClientErr RoleMapping)
    (rr : Except ClientErr Role) :
    ((roleEntitlementsA res mr rr).err ≠ none → (roleEntitlementsA res mr rr).items = [])
    ∧ ((roleGrantsA res mr rr).err ≠ none → (roleGrantsA res mr rr).items = [])
    ∧ ((grantsP2 res mr rr).err ≠ none → (grantsP2 res mr rr).items = []) := by
  cases mr with
  | error e => exact ⟨fun _ => rfl, fun _ => rfl, fun _ => rfl⟩
  | ok rm =>
    cases rr with
    | error e => exact ⟨fun _ => rfl, fun _ => rfl, fun _ => rfl⟩
    | ok role => exact ⟨fun h => absurd rfl h, fun h => absurd rfl h, fun h => absurd rfl h⟩

/-- Witness for claim C9 at a concrete transport failure: the error
is reported and the item collections are empty. -/
theorem C9_witness :
    (roleEntitlementsA sampleRes (Except.error (ClientErr.transport "boom")) (Except.ok sampleRole)).err ≠ none
    ∧ (roleEntitlementsA sampleRes (Except.error (ClientErr.transport "boom")) (Except.ok sampleRole)).items = []
    ∧ (roleGrantsA sampleRes (Except.error (ClientErr.transport "boom")) (Except.ok sampleRole)).err ≠ none
    ∧ (roleGrantsA sampleRes (Except.error (ClientErr.transport "boom")) (Except.ok sampleRole)).items = []
    ∧ (grantsP2 sampleRes (Except.error (ClientErr.transport "boom")) (Except.ok sampleRole)).err ≠ none
    ∧ (grantsP2 sampleRes (Except.error (ClientErr.transport "boom")) (Except.ok sampleRole)).items = [] :=
  ⟨by decide,
    (C9_error_implies_no_items sampleRes (Except.error (ClientErr.transport "boom")) (Except.ok sampleRole)).1 (by decide),
    by decide,
    (C9_error_implies_no_items sampleRes (Except.error (ClientErr.transport "boom")) (Except.ok sampleRole)).2.1 (by decide),
    by decide,
    (C9_error_implies_no_items sampleRes (Except.error (ClientErr.transport "boom")) (Except.ok sampleRole)).2.2 (by decide)⟩

/-- Claim C5, code evidence: with users equal to the singleton
wildcard list and the match key configured to email, the single
produced grant carries BOTH the external-match-all annotation and a
literal key/value external match whose value is the string "*"
(part_001 revision of roles.go, Grants lines 139-161: the wildcard
branch appends the match-all annotation but does not skip the generic
match-key annotation). -/
theorem C5_wildcard_grant_also_carries_literal_match :
    (roleGrantsCurrent (roleResource "r1")
        (Except.ok { name := "r1", backendRoles := [], users := ["*"], hosts := [], andBackendRoles := [] })
        "email").items.map Grant.meta
      = [[GrantMeta.matchAll { resourceType := "user" },
          GrantMeta.matchKV { resourceType := "user", key := "email", value := "*" }]] := by
  decide

/-- Claim C6: every grant the first revision of roles.go produces for
a role with at least one cluster or index permission carries an
expandable annotation with shallow true and resource type ids
restricted to exactly the user kind (roles.go lines 159-185 and
224-250). -/
theorem C6_perm_role_grants_restricted_expansion
    (res : Resource) (rm : RoleMapping) (role : Role) (g : Grant)
    (hperm : 0 < role.clusterPermissions.length ∨ 0 < role.indexPermissions.length)
    (hg : g ∈ (roleGrantsA res (Except.ok rm) (Except.ok role)).items) :
    ∃ ex : GrantExpandable, GrantMeta.expand ex ∈ g.meta ∧ ex.shallow = true ∧ ex.resourceTypeIds = ["user"] := by
  have hmem : g ∈ rm.backendRoles.map (groupGrantA res role) ++ rm.users.map (userGrantA res role) := hg
  rw [List.mem_append] at hmem
  rcases hmem with hm | hm
  · obtain ⟨b, -, rfl⟩ := List.mem_map.mp hm
    refine ⟨{ entitlementIds := expandIdsA res role, shallow := true, resourceTypeIds := ["user"] }, ?_, rfl, rfl⟩
    simp only [groupGrantA, newGrant]
    rw [if_pos hperm]
    simp
  · obtain ⟨u, -, rfl⟩ := List.mem_map.mp hm
    refine ⟨{ entitlementIds := expandIdsA res role, shallow := true, resourceTypeIds := ["user"] }, ?_, rfl, rfl⟩
    simp only [userGrantA, newGrant]
    rw [if_pos hperm]
    simp

/-- Witness for claim C6 at the sample inputs: the sample role has a
cluster permission, the user grant for alice is among the produced
grants, and it carries the restricted shallow expandable
annotation. -/
theorem C6_witness :
    (0 < sampleRole.clusterPermissions.length ∨ 0 < sampleRole.indexPermissions.length)
    ∧ userGrantA sampleRes sampleRole "alice" ∈ (roleGrantsA sampleRes (Except.ok sampleMapping) (Except.ok sampleRole)).items
    ∧ ∃ ex : GrantExpandable, GrantMeta.expand ex ∈ (userGrantA sampleRes sampleRole "alice").meta
        ∧ ex.shallow = true ∧ ex.resourceTypeIds = ["user"] :=
  ⟨by decide, by decide,
    C6_perm_role_grants_restricted_expansion sampleRes sampleMapping sampleRole
      (userGrantA sampleRes sampleRole "alice") (by decide) (by decide)⟩

/-- Claim C8: for every non-wildcard user identifier u in a role
mapping, the user grant produced by the part_001 revision is among
the produced grants and resolves its target by exactly one external
match annotation whose key is the connector-wide configured match key
and whose value is u; the same configured key is used for every user
(part_001 revision of roles.go, Grants lines 147-161). -/
theorem C8_user_grant_uses_configured_match_key
    (res : Resource) (matchKey : String) (rm : RoleMapping) (u : String)
    (hu : u ∈ rm.users) (hw : u ≠ "*") :
    userGrantCurrent res matchKey u ∈ (roleGrantsCurrent res (Except.ok rm) matchKey).items
    ∧ (userGrantCurrent res matchKey u).meta.filterMap keyValOf = [(matchKey, u)] := by
  constructor
  · show userGrantCurrent res matchKey u
        ∈ rm.backendRoles.map (groupGrantCurrent res) ++ rm.users.map (userGrantCurrent res matchKey)
    exact List.mem_append_right _ (List.mem_map.mpr ⟨u, hu, rfl⟩)
  · by_cases hid : matchKey = "id"
    · subst hid
      simp [userGrantCurrent, newGrant, keyValOf, hw]
    · simp [userGrantCurrent, newGrant, keyValOf, hw, hid]

/-- Witness for claim C8 at the sample inputs with the match key
configured to email. -/
theorem C8_witness :
    "alice" ∈ sampleMapping.users ∧ "alice" ≠ "*"
    ∧ userGrantCurrent sampleRes "email" "alice" ∈ (roleGrantsCurrent sampleRes (Except.ok sampleMapping) "email").items
    ∧ (userGrantCurrent sampleRes "email" "alice").meta.filterMap keyValOf = [("email", "alice")] := by
  refine ⟨by decide, by decide, ?_, ?_⟩
  · exact (C8_user_grant_uses_configured_match_key sampleRes "email" sampleMapping "alice" (by decide) (by decide)).1
  · exact (C8_user_grant_uses_configured_match_key sampleRes "email" sampleMapping "alice" (by decide) (by decide)).2

/-- Claim C10: when the configured user match key is exactly the
string id, every user grant produced by the part_001 revision carries
the id-only external match annotation holding the raw identifier and
carries no key/value external match annotation (part_001 revision of
roles.go, Grants lines 148-161). -/
theorem C10_id_match_key_uses_id_only_match
    (res : Resource) (rm : RoleMapping) (u : String) (hu : u ∈ rm.users) :
    userGrantCurrent res "id" u ∈ (roleGrantsCurrent res (Except.ok rm) "id").items
    ∧ GrantMeta.matchID { id := u } ∈ (userGrantCurrent res "id" u).meta
    ∧ (userGrantCurrent res "id" u).meta.filter isKV = [] := by
  refine ⟨?_, ?_, ?_⟩
  · show userGrantCurrent res "id" u
        ∈ rm.backendRoles.map (groupGrantCurrent res) ++ rm.users.map (userGrantCurrent res "id")
    exact List.mem_append_right _ (List.mem_map.mpr ⟨u, hu, rfl⟩)
  · by_cases hw : u = "*" <;> simp [userGrantCurrent, newGrant, hw]
  · by_cases hw : u = "*" <;> simp [userGrantCurrent, newGrant, isKV, hw]

/-- Witness for claim C10 at the sample inputs with the match key
configured to id. -/
theorem C10_witness :
    "alice" ∈ sampleMapping.users
    ∧ userGrantCurrent sampleRes "id" "alice" ∈ (roleGrantsCurrent sampleRes (Except.ok sampleMapping) "id").items
    ∧ GrantMeta.matchID { id := "alice" } ∈ (userGrantCurrent sampleRes "id" "alice").meta
    ∧ (userGrantCurrent sampleRes "id" "alice").meta.filter isKV = [] := by
  refine ⟨by decide, ?_, ?_, ?_⟩
  · exact (C10_id_match_key_uses_id_only_match sampleRes sampleMapping "alice" (by decide)).1
  · exact (C10_id_match_key_uses_id_only_match sampleRes sampleMapping "alice" (by decide)).2.1
  · exact (C10_id_match_key_uses_id_only_match sampleRes sampleMapping "alice" (by decide)).2.2
